import Mathlib

/-!
Verification of the `exporter` package of mtail (`src/exporter/export.go`).

The embedding is shallow and executable:

* Go strings are Lean `String`s (the separators and labels used by the
  exporter are plain UTF-8 text; `strings.Replace` matches byte patterns,
  but for valid UTF-8 inputs pattern occurrences are rune-aligned, so a
  character-level model is exact).
* The Go map `map[string]string` of labels is modelled as an association
  list `List (String × String)` recording one iteration order of the map
  (Go map iteration order is unspecified; all theorems hold for every
  order because they quantify over the list).
* `expvar.Int` counters are modelled by the per-call increments they
  receive (the counters themselves are monotone accumulators).
* A network connection is modelled by an oracle `ConnBehavior` telling,
  for each successive write on the connection, whether it succeeds, and
  whether `SetDeadline` / `Close` succeed.
* `glog` logging is ignored: it has no effect on program state.
-/

/-- Model of Go `strings.Replace(s, old, new, -1)` on character lists for a
non-empty pattern `old`: scan left to right, replacing non-overlapping
occurrences.  The `fuel` argument makes the recursion structural; it is
called with `fuel = s.length`, which suffices because every step consumes at
least one character of `s` (the pattern is non-empty). -/
def goReplaceAux (old new : List Char) : Nat → List Char → List Char
  | _, [] => []
  | 0, s => s
  | Nat.succ fuel, c :: cs =>
    if old.isPrefixOf (c :: cs) then
      new ++ goReplaceAux old new fuel ((c :: cs).drop old.length)
    else
      c :: goReplaceAux old new fuel cs

/-- Model of Go `strings.Replace(s, old, new, -1)`.  For an empty pattern,
Go inserts `new` before every rune of `s` and after the last one. -/
def goReplace (s old new : String) : String :=
  match old.data with
  | [] => String.mk (new.data ++ (s.data.map (fun c => c :: new.data)).flatten)
  | _ :: _ => String.mk (goReplaceAux old.data new.data s.data.length s.data)

/-- The escaping applied by `formatLabels` (export.go lines 84-85) to a label
key or value: `strings.Replace(strings.Replace(x, ksep, rep, -1), sep, rep, -1)`. -/
def escapeLabelPart (ksep sep rep s : String) : String :=
  goReplace (goReplace s ksep rep) sep rep

/-- Model of `formatLabels` (export.go lines 79-91): converts a metric name
and a key-value map of labels to a single string.  `m` is the label map in
its (unspecified) Go iteration order. -/
def formatLabels (name : String) (m : List (String × String)) (ksep sep rep : String) : String :=
  if m.length > 0 then
    name ++ sep ++ String.intercalate sep
      (m.map (fun kv => escapeLabelPart ksep sep rep kv.1 ++ ksep ++ escapeLabelPart ksep sep rep kv.2))
  else name

/-- The label block appended after the metric name by `formatLabels`
(everything in the output that does not come from `name`). -/
def labelBlock (m : List (String × String)) (ksep sep rep : String) : String :=
  if m.length > 0 then
    sep ++ String.intercalate sep
      (m.map (fun kv => escapeLabelPart ksep sep rep kv.1 ++ ksep ++ escapeLabelPart ksep sep rep kv.2))
  else ""

/-- Whether `pat` occurs as a contiguous substring of `s` (character level). -/
def hasSubList (pat : List Char) : List Char → Bool
  | [] => pat.isPrefixOf []
  | c :: cs => pat.isPrefixOf (c :: cs) || hasSubList pat cs

/-- One `metrics.LabelSet`: the label key-value pairs and the value of one
time series of a metric. -/
structure LabelSet where
  labels : List (String × String)
  value : Int
deriving DecidableEq

/-- One `metrics.Metric`: its name and the sequence of label sets that
`EmitLabelSets` sends on the channel during one export pass. -/
structure Metric where
  name : String
  labelSets : List LabelSet
deriving DecidableEq

/-- `e.store.Metrics`, a `map[string][]*Metric`, in its (unspecified) Go
iteration order: a list of metric groups, one group per metric name. -/
abbrev Store := List (List Metric)

/-- The `formatter` type (export.go line 95): hostname, metric, label set to
one line of text. -/
abbrev Formatter := String → Metric → LabelSet → String

/-- Behaviour of one dialled connection: whether the `i`-th `fmt.Fprint` on
it succeeds, and whether `SetDeadline` and `Close` succeed. -/
structure ConnBehavior where
  writeOk : Nat → Bool
  setDeadlineOk : Bool
  closeOk : Bool

/-- State threaded through `writeSocketMetrics`: the increments received by
the target's `exportTotal` and `exportSuccess` counters, the index of the
next write on the connection, the lines passed to `fmt.Fprint` so far (in
order), and the per-metric read locks currently held. -/
structure WSState where
  total : Nat
  success : Nat
  writeIdx : Nat
  written : List String
  locks : List String
deriving DecidableEq

/-- The label-set loop of `writeSocketMetrics` (export.go lines 107-116):
for each label set received from the channel, render the line, write it, and
either bump the success counter or return a write error.  The returned
`Bool` is true when a write error was returned. -/
def writeLabelSets (host : String) (f : Formatter) (conn : ConnBehavior) (m : Metric) :
    List LabelSet → WSState → WSState × Bool
  | [], st => (st, false)
  | l :: rest, st =>
    let line := f host m l
    let ok := conn.writeOk st.writeIdx
    let st1 : WSState :=
      { st with written := st.written ++ [line], writeIdx := st.writeIdx + 1 }
    if ok then
      writeLabelSets host f conn m rest { st1 with success := st1.success + 1 }
    else
      (st1, true)

/-- The per-metric body of `writeSocketMetrics` (export.go lines 103-117):
`m.RLock()`, `exportTotal.Add(1)`, drain the label sets, then `m.RUnlock()`.
Faithful to the source, the early `return` on a write error skips
`m.RUnlock()`, so the metric's read lock stays in `locks`. -/
def writeMetric (host : String) (f : Formatter) (conn : ConnBehavior) (m : Metric)
    (st : WSState) : WSState × Bool :=
  let st1 : WSState := { st with locks := st.locks ++ [m.name], total := st.total + 1 }
  match writeLabelSets host f conn m m.labelSets st1 with
  | (st2, true) => (st2, true)
  | (st2, false) => ({ st2 with locks := st2.locks.dropLast }, false)

/-- The inner `for _, m := range ml` loop of `writeSocketMetrics`. -/
def writeMetricList (host : String) (f : Formatter) (conn : ConnBehavior) :
    List Metric → WSState → WSState × Bool
  | [], st => (st, false)
  | m :: rest, st =>
    match writeMetric host f conn m st with
    | (st2, true) => (st2, true)
    | (st2, false) => writeMetricList host f conn rest st2

/-- The outer `for _, ml := range e.store.Metrics` loop of
`writeSocketMetrics`. -/
def writeGroups (host : String) (f : Formatter) (conn : ConnBehavior) :
    Store → WSState → WSState × Bool
  | [], st => (st, false)
  | g :: rest, st =>
    match writeMetricList host f conn g st with
    | (st2, true) => (st2, true)
    | (st2, false) => writeGroups host f conn rest st2

/-- The state at entry of `writeSocketMetrics`: no increments yet, no
writes, no metric locks held. -/
def initWS : WSState := { total := 0, success := 0, writeIdx := 0, written := [], locks := [] }

/-- Model of `(*Exporter).writeSocketMetrics` (export.go lines 97-121).  The
store-wide read lock (taken at entry and released by `defer`) is always
balanced and is not tracked; `locks` tracks the per-metric read locks.  The
channel-fed producer `go m.EmitLabelSets(lc)` is modelled by the metric's
`labelSets` list, the sequence the consumer receives. -/
def writeSocketMetrics (host : String) (f : Formatter) (store : Store)
    (conn : ConnBehavior) : WSState × Bool :=
  writeGroups host f conn store initWS

/-- One push target as used by `PushMetrics`: the `net`, `addr` and
formatter fields of `pushOptions` (the two counters are modelled by the
increments reported in `PushTargetResult`). -/
structure TargetModel where
  net : String
  addr : String
  f : Formatter

/-- Everything one iteration of the `PushMetrics` loop does to one target:
whether the dial succeeded, whether `SetDeadline` succeeded, the counter
increments, the lines written, whether `writeSocketMetrics` returned a write
error, whether `Close` was called, and the metric locks left held. -/
structure PushTargetResult where
  dialed : Bool
  deadlineSet : Bool
  totalInc : Nat
  successInc : Nat
  written : List String
  writeErr : Bool
  closed : Bool
  locksLeaked : List String
deriving DecidableEq

/-- The result of a loop iteration whose dial failed: the `continue` at
export.go line 130 touches nothing for this target. -/
def dialFailResult : PushTargetResult :=
  { dialed := false, deadlineSet := false, totalInc := 0, successInc := 0,
    written := [], writeErr := false, closed := false, locksLeaked := [] }

/-- One iteration of the `for _, target := range e.pushTargets` loop of
`PushMetrics` (export.go lines 125-145).  `behavior` is the outcome of
`net.DialTimeout`: `none` models a dial error.  On a successful dial the
deadline is set best-effort, `writeSocketMetrics` runs, and `Close` is
always called; every error is logged and swallowed. -/
def pushTarget (host : String) (store : Store) (t : TargetModel)
    (behavior : Option ConnBehavior) : PushTargetResult :=
  match behavior with
  | none => dialFailResult
  | some conn =>
    let r := writeSocketMetrics host t.f store conn
    { dialed := true, deadlineSet := conn.setDeadlineOk,
      totalInc := r.1.total, successInc := r.1.success, written := r.1.written,
      writeErr := r.2, closed := true, locksLeaked := r.1.locks }

/-- The `PushMetrics` loop unrolled from target index `i`: the environment
`env` gives each target's dial outcome for this tick. -/
def pushMetricsFrom (host : String) (store : Store) (env : Nat → Option ConnBehavior) :
    Nat → List TargetModel → List PushTargetResult
  | _, [] => []
  | i, t :: rest => pushTarget host store t (env i) :: pushMetricsFrom host store env (i + 1) rest

/-- Model of `(*Exporter).PushMetrics` (export.go lines 124-146): push to
each configured target in registration order, sequentially; the function
returns no error (every failure is logged and swallowed), so it yields one
result per target. -/
def PushMetrics (host : String) (store : Store) (targets : List TargetModel)
    (env : Nat → Option ConnBehavior) : List PushTargetResult :=
  pushMetricsFrom host store env 0 targets

/-- Model of `(*Exporter).StartMetricPush` (export.go lines 149-159) run for
`n` ticks of the interval timer: if no targets are registered, no ticker is
created and nothing ever runs; otherwise every tick invokes `PushMetrics`
once.  `env` gives the dial outcome per tick and per target; real time and
the interval duration are abstracted into the tick index. -/
def StartMetricPushRun (host : String) (store : Store) (targets : List TargetModel)
    (env : Nat → Nat → Option ConnBehavior) (n : Nat) : List (List PushTargetResult) :=
  if targets.length > 0 then
    (List.range n).map (fun tick => PushMetrics host store targets (fun i => env tick i))
  else []

/-- `Options` (export.go lines 39-43). `Store` is a nil-able pointer. -/
structure ExporterOptions where
  Store : Option Store
  Hostname : String
  OmitProgLabel : Bool

/-- The collectd/graphite/statsd flag values consulted by `New`
(declared in the collectd/graphite/statsd file of the package): empty means
the backend is disabled. -/
structure BackendFlags where
  collectdSocketPath : String
  graphiteHostPort : String
  statsdHostPort : String

/-- Which backend a registered `pushOptions` belongs to (standing for its
formatter and counter pair, which are per-backend constants). -/
inductive Backend where
  | collectd
  | graphite
  | statsd
deriving DecidableEq

/-- One registered `pushOptions` record as built by `New`. -/
structure PushOptionsModel where
  net : String
  addr : String
  backend : Backend
deriving DecidableEq

/-- The `Exporter` built by `New`. -/
structure ExporterModel where
  store : Store
  hostname : String
  omitProgLabel : Bool
  pushTargets : List PushOptionsModel
deriving DecidableEq

/-- Model of `New` (export.go lines 46-73).  `sysHostname` is the outcome of
`os.Hostname()`; `fl` holds the backend flag values.  A nil `Store` is a
construction error; a hostname error is wrapped; otherwise the exporter is
built and one push export is registered per non-empty backend flag. -/
def NewExporter (o : ExporterOptions) (sysHostname : Except String String)
    (fl : BackendFlags) : Except String ExporterModel :=
  match o.Store with
  | none => Except.error "exporter needs a Store"
  | some st =>
    let hn : Except String String :=
      if o.Hostname = "" then
        match sysHostname with
        | Except.ok h => Except.ok h
        | Except.error e => Except.error ("getting hostname: " ++ e)
      else Except.ok o.Hostname
    match hn with
    | Except.error e => Except.error e
    | Except.ok h =>
      let ts : List PushOptionsModel :=
        (if fl.collectdSocketPath ≠ "" then
          [{ net := "unix", addr := fl.collectdSocketPath, backend := Backend.collectd }] else []) ++
        (if fl.graphiteHostPort ≠ "" then
          [{ net := "tcp", addr := fl.graphiteHostPort, backend := Backend.graphite }] else []) ++
        (if fl.statsdHostPort ≠ "" then
          [{ net := "udp", addr := fl.statsdHostPort, backend := Backend.statsd }] else [])
      Except.ok { store := st, hostname := h, omitProgLabel := o.OmitProgLabel, pushTargets := ts }

/-- Whether `New` succeeded. -/
def newOk (r : Except String ExporterModel) : Bool :=
  match r with
  | Except.ok _ => true
  | Except.error _ => false

-- Concrete fixtures used by counterexamples and witnesses.

/-- The registry of the spec's worked example: one metric `requests` with
label sets `region=us -> 5` and `region=eu -> 3`. -/
def reqStore : Store :=
  [[{ name := "requests",
      labelSets := [{ labels := [("region", "us")], value := 5 },
                    { labels := [("region", "eu")], value := 3 }] }]]

/-- A graphite-style line formatter built on `formatLabels` (hostname
unused, as a formatter may do). -/
def lineFmt : Formatter := fun _ m l => formatLabels m.name l.labels "=" "," "_"

/-- A healthy connection: every write succeeds. -/
def healthyConn : ConnBehavior :=
  { writeOk := fun _ => true, setDeadlineOk := true, closeOk := true }

/-- A connection whose writes all fail. -/
def deadConn : ConnBehavior :=
  { writeOk := fun _ => false, setDeadlineOk := true, closeOk := true }

/-- A connection that accepts the first write and fails the second. -/
def failSecondConn : ConnBehavior :=
  { writeOk := fun j => j == 0, setDeadlineOk := true, closeOk := true }

/-- A demo push target. -/
def demoTarget : TargetModel := { net := "tcp", addr := "localhost:2003", f := lineFmt }

-- Invariants of the write loop.

/-- All writes with index below `n` succeed. -/
def okUpTo (w : Nat → Bool) (n : Nat) : Prop := ∀ j, j < n → w j = true

/-- State of an export pass in which no write has failed yet: one line was
passed to the connection per write index, every such write succeeded, and
the success counter counts them all. -/
def WInv (w : Nat → Bool) (st : WSState) : Prop :=
  st.written.length = st.writeIdx ∧ st.success = st.writeIdx ∧ okUpTo w st.writeIdx

/-- State at the early return after a failed write: the last write attempted
failed, all earlier ones succeeded, and the success counter counts exactly
the successful ones. -/
def WErr (w : Nat → Bool) (st : WSState) : Prop :=
  st.written.length = st.writeIdx ∧ st.success + 1 = st.writeIdx ∧
  w (st.writeIdx - 1) = false ∧ okUpTo w (st.writeIdx - 1)

-- Behaviour of one export pass over a healthy connection.

/-- The lines one metric contributes to an export pass: one per label set,
rendered by the formatter. -/
def metricLines (host : String) (f : Formatter) (m : Metric) : List String :=
  m.labelSets.map (fun l => f host m l)

/-- Number of metrics in the registry. -/
def storeMetricCount (s : Store) : Nat := s.flatten.length

/-- Number of label sets across every metric in the registry. -/
def storeLabelSetCount (s : Store) : Nat :=
  (s.flatten.map (fun m => m.labelSets.length)).sum

/-- All lines of one export pass, in traversal order. -/
def storeLines (host : String) (f : Formatter) (s : Store) : List String :=
  (s.flatten.map (metricLines host f)).flatten

/-- A tick environment in which every dial succeeds on a healthy
connection. -/
def demoEnv : Nat → Nat → Option ConnBehavior := fun _ _ => some healthyConn

-- Auxiliary lemmas about `goReplace`.

/-- Every character of the output of `goReplaceAux` comes from the
replacement text or from the input. -/
theorem goReplaceAux_mem (old new : List Char) :
    ∀ (fuel : Nat) (s : List Char) (x : Char),
      x ∈ goReplaceAux old new fuel s → x ∈ new ∨ x ∈ s := by
  intro fuel
  induction fuel with
  | zero =>
    intro s x hx
    cases s with
    | nil => simp [goReplaceAux] at hx
    | cons c cs => exact Or.inr (by simpa [goReplaceAux] using hx)
  | succ fuel ih =>
    intro s x hx
    cases s with
    | nil => simp [goReplaceAux] at hx
    | cons c cs =>
      by_cases hp : old.isPrefixOf (c :: cs)
      · rw [goReplaceAux, if_pos hp] at hx
        rcases List.mem_append.mp hx with h1 | h2
        · exact Or.inl h1
        · rcases ih _ _ h2 with h3 | h4
          · exact Or.inl h3
          · exact Or.inr (List.mem_of_mem_drop h4)
      · rw [goReplaceAux, if_neg hp] at hx
        rcases List.mem_cons.mp hx with h1 | h2
        · exact Or.inr (h1 ▸ List.mem_cons_self c cs)
        · rcases ih _ _ h2 with h3 | h4
          · exact Or.inl h3
          · exact Or.inr (List.mem_cons_of_mem c h4)

/-- Replacing a single character `c` whose replacement text does not contain
`c` removes every occurrence of `c` (given enough fuel). -/
theorem goReplaceAux_single (new : List Char) (c : Char) (hc : c ∉ new) :
    ∀ (fuel : Nat) (s : List Char), s.length ≤ fuel →
      c ∉ goReplaceAux [c] new fuel s := by
  intro fuel
  induction fuel with
  | zero =>
    intro s hs
    have hnil : s = [] := List.length_eq_zero.mp (Nat.le_zero.mp hs)
    subst hnil
    simp [goReplaceAux]
  | succ fuel ih =>
    intro s hs
    cases s with
    | nil => simp [goReplaceAux]
    | cons a as =>
      by_cases hp : ([c]).isPrefixOf (a :: as)
      · rw [goReplaceAux, if_pos hp]
        intro hx
        rcases List.mem_append.mp hx with h1 | h2
        · exact hc h1
        · have hlen : as.length ≤ fuel := Nat.le_of_succ_le_succ (by simpa using hs)
          exact ih as hlen (by simpa using h2)
      · rw [goReplaceAux, if_neg hp]
        intro hx
        rcases List.mem_cons.mp hx with h1 | h2
        · exact hp (by simp [List.isPrefixOf, h1])
        · exact ih as (Nat.le_of_succ_le_succ (by simpa using hs)) h2

/-- `goReplace` with a single-character pattern `c` and a replacement not
containing `c` yields a string free of `c`. -/
theorem goReplace_single_eliminates (s : String) (c : Char) (new : String)
    (hc : c ∉ new.data) : c ∉ (goReplace s (String.mk [c]) new).data := by
  have h : goReplace s (String.mk [c]) new =
      String.mk (goReplaceAux [c] new.data s.data.length s.data) := rfl
  rw [h]
  exact goReplaceAux_single new.data c hc s.data.length s.data (Nat.le_refl _)

/-- `goReplace` never introduces a character that is in neither the input
nor the replacement text. -/
theorem goReplace_preserves_absence (s old new : String) (d : Char)
    (hd1 : d ∉ s.data) (hd2 : d ∉ new.data) : d ∉ (goReplace s old new).data := by
  unfold goReplace
  split
  · intro hx
    simp only [String.mk] at hx
    rcases List.mem_append.mp hx with h1 | h2
    · exact hd2 h1
    · rcases List.mem_flatten.mp h2 with ⟨l, hl, hxl⟩
      rcases List.mem_map.mp hl with ⟨ch, hch, rfl⟩
      rcases List.mem_cons.mp hxl with h3 | h4
      · exact hd1 (h3 ▸ hch)
      · exact hd2 h4
  · intro hx
    rcases goReplaceAux_mem _ _ _ _ _ hx with h1 | h2
    · exact hd2 h1
    · exact hd1 h2

/-- The non-empty-label case of `formatLabels`, spelled out. -/
theorem formatLabels_of_ne_nil (name : String) (m : List (String × String))
    (ksep sep rep : String) (h : m ≠ []) :
    formatLabels name m ksep sep rep =
      name ++ sep ++ String.intercalate sep
        (m.map (fun kv =>
          escapeLabelPart ksep sep rep kv.1 ++ ksep ++ escapeLabelPart ksep sep rep kv.2)) := by
  have hpos : m.length > 0 := List.length_pos.mpr h
  simp [formatLabels, hpos]

/-- Claim C7: for every name and every keySep/pairSep/replacement triple,
`formatLabels` applied to an empty label mapping returns the name
unchanged. -/
theorem c7_format_empty (name ksep sep rep : String) :
    formatLabels name [] ksep sep rep = name := rfl

/-- Claim C10: `formatLabels` never escapes the metric name: the output is
literally `name` followed by a label block computed from the labels alone,
so every occurrence of `keySep` or `pairSep` inside `name` appears verbatim;
only label keys and values undergo separator replacement. -/
theorem c10_name_unescaped (name : String) (m : List (String × String))
    (ksep sep rep : String) :
    formatLabels name m ksep sep rep = name ++ labelBlock m ksep sep rep := by
  by_cases h : m.length > 0
  · simp only [formatLabels, labelBlock, if_pos h]
    exact String.append_assoc name sep _
  · simp only [formatLabels, labelBlock, if_neg h]
    exact (String.append_empty name).symm

/-- Claim C6: for a non-empty label mapping, `formatLabels` returns the name
followed by `pairSep` followed by the escaped `key<keySep>value` pairs
joined by `pairSep`; in particular
`formatLabels "latency" [("path", "/a,b")] "=" "," "_" = "latency,path=/a_b"`. -/
theorem c6_format_nonempty (name : String) (m : List (String × String))
    (ksep sep rep : String) (h : m ≠ []) :
    formatLabels name m ksep sep rep =
      name ++ sep ++ String.intercalate sep
        (m.map (fun kv =>
          escapeLabelPart ksep sep rep kv.1 ++ ksep ++ escapeLabelPart ksep sep rep kv.2)) ∧
    formatLabels "latency" [("path", "/a,b")] "=" "," "_" = "latency,path=/a_b" :=
  ⟨formatLabels_of_ne_nil name m ksep sep rep h, by decide⟩

/-- Witness for C6 at the spec's worked example. -/
theorem c6_format_nonempty_witness :
    formatLabels "latency" [("path", "/a,b")] "=" "," "_" = "latency,path=/a_b" :=
  (c6_format_nonempty "latency" [("path", "/a,b")] "=" "," "_" (by decide)).2

/-- Claim C3 counterexample: the claim quantifies over every replacement
string, but with `replacement = ","` (equal to `pairSep`) the escaped value
of the label `a -> b=c` still contains the pair separator, and the rendered
output `m,a=b,c` splits into three fields on `pairSep` instead of two: an
unescaped separator occurrence outside every structural position. -/
theorem c3_escaping_cex :
    escapeLabelPart "=" "," "," "b=c" = "b,c" ∧
    hasSubList (",").data (escapeLabelPart "=" "," "," "b=c").data = true ∧
    formatLabels "m" [("a", "b=c")] "=" "," "," = "m,a=b,c" ∧
    ("m,a=b,c").data.splitOn ',' = [['m'], ['a', '=', 'b'], ['c']] := by decide

/-- Claim C3, amended: when `keySep` and `pairSep` are single characters and
the replacement contains neither of them, the escaped form of every label
key or value contains no occurrence of `keySep` or `pairSep` at all, so the
only separator occurrences in the rendered label block are the structural
ones `formatLabels` inserts. -/
theorem c3_escaping_amended (ks ps : Char) (rep : String)
    (h1 : ks ∉ rep.data) (h2 : ps ∉ rep.data) (x : String) :
    ks ∉ (escapeLabelPart (String.mk [ks]) (String.mk [ps]) rep x).data ∧
    ps ∉ (escapeLabelPart (String.mk [ks]) (String.mk [ps]) rep x).data := by
  unfold escapeLabelPart
  constructor
  · exact goReplace_preserves_absence _ _ _ _ (goReplace_single_eliminates x ks rep h1) h1
  · exact goReplace_single_eliminates _ ps rep h2

/-- Witness for the amended C3 with the graphite-style triple. -/
theorem c3_escaping_amended_witness :
    '=' ∉ (escapeLabelPart (String.mk ['=']) (String.mk [',']) "_" "b=,c").data ∧
    ',' ∉ (escapeLabelPart (String.mk ['=']) (String.mk [',']) "_" "b=,c").data :=
  c3_escaping_amended '=' ',' "_" (by decide) (by decide) "b=,c"

theorem writeLabelSets_inv (host : String) (f : Formatter) (conn : ConnBehavior) (m : Metric) :
    ∀ (ls : List LabelSet) (st : WSState), WInv conn.writeOk st →
      ((writeLabelSets host f conn m ls st).2 = false →
        WInv conn.writeOk (writeLabelSets host f conn m ls st).1) ∧
      ((writeLabelSets host f conn m ls st).2 = true →
        WErr conn.writeOk (writeLabelSets host f conn m ls st).1) := by
  intro ls
  induction ls with
  | nil =>
    intro st hst
    refine ⟨fun _ => hst, fun h => ?_⟩
    simp [writeLabelSets] at h
  | cons l rest ih =>
    intro st hst
    obtain ⟨h1, h2, h3⟩ := hst
    by_cases hok : conn.writeOk st.writeIdx = true
    · have hstep : writeLabelSets host f conn m (l :: rest) st =
          writeLabelSets host f conn m rest
            { st with written := st.written ++ [f host m l], writeIdx := st.writeIdx + 1,
                      success := st.success + 1 } := by
        simp [writeLabelSets, hok]
      have hinv : WInv conn.writeOk
          { st with written := st.written ++ [f host m l], writeIdx := st.writeIdx + 1,
                    success := st.success + 1 } := by
        refine ⟨by simp [h1], by simp [h2], ?_⟩
        intro j hj
        rcases Nat.lt_succ_iff_lt_or_eq.mp hj with hlt | heq
        · exact h3 j hlt
        · exact heq ▸ hok
      rw [hstep]
      exact ih _ hinv
    · have hok' : conn.writeOk st.writeIdx = false := Bool.not_eq_true _ ▸ eq_false_of_ne_true hok
      have hstep : writeLabelSets host f conn m (l :: rest) st =
          ({ st with written := st.written ++ [f host m l], writeIdx := st.writeIdx + 1 }, true) := by
        simp [writeLabelSets, hok']
      rw [hstep]
      refine ⟨fun h => by simp at h, fun _ => ⟨by simp [h1], by simp [h2], ?_, ?_⟩⟩
      · simpa using hok'
      · simpa using h3

theorem writeMetric_inv (host : String) (f : Formatter) (conn : ConnBehavior) (m : Metric)
    (st : WSState) (hst : WInv conn.writeOk st) :
    ((writeMetric host f conn m st).2 = false → WInv conn.writeOk (writeMetric host f conn m st).1) ∧
    ((writeMetric host f conn m st).2 = true → WErr conn.writeOk (writeMetric host f conn m st).1) := by
  have hst1 : WInv conn.writeOk
      { st with locks := st.locks ++ [m.name], total := st.total + 1 } := by
    obtain ⟨h1, h2, h3⟩ := hst
    exact ⟨by simpa using h1, by simpa using h2, by simpa using h3⟩
  have h := writeLabelSets_inv host f conn m m.labelSets _ hst1
  rcases hres : writeLabelSets host f conn m m.labelSets
      { st with locks := st.locks ++ [m.name], total := st.total + 1 } with ⟨st2, e⟩
  rw [hres] at h
  cases e with
  | true =>
    have heq : writeMetric host f conn m st = (st2, true) := by
      simp [writeMetric, hres]
    rw [heq]
    exact ⟨fun hc => by simp at hc, fun _ => h.2 rfl⟩
  | false =>
    have heq : writeMetric host f conn m st =
        ({ st2 with locks := st2.locks.dropLast }, false) := by
      simp [writeMetric, hres]
    rw [heq]
    refine ⟨fun _ => ?_, fun hc => by simp at hc⟩
    obtain ⟨h1, h2, h3⟩ := h.1 rfl
    exact ⟨by simpa using h1, by simpa using h2, by simpa using h3⟩

theorem writeMetricList_inv (host : String) (f : Formatter) (conn : ConnBehavior) :
    ∀ (ms : List Metric) (st : WSState), WInv conn.writeOk st →
      ((writeMetricList host f conn ms st).2 = false →
        WInv conn.writeOk (writeMetricList host f conn ms st).1) ∧
      ((writeMetricList host f conn ms st).2 = true →
        WErr conn.writeOk (writeMetricList host f conn ms st).1) := by
  intro ms
  induction ms with
  | nil =>
    intro st hst
    exact ⟨fun _ => hst, fun h => by simp [writeMetricList] at h⟩
  | cons m rest ih =>
    intro st hst
    have h := writeMetric_inv host f conn m st hst
    rcases hres : writeMetric host f conn m st with ⟨st2, e⟩
    rw [hres] at h
    cases e with
    | true =>
      have heq : writeMetricList host f conn (m :: rest) st = (st2, true) := by
        simp [writeMetricList, hres]
      rw [heq]
      exact ⟨fun hc => by simp at hc, fun _ => h.2 rfl⟩
    | false =>
      have heq : writeMetricList host f conn (m :: rest) st =
          writeMetricList host f conn rest st2 := by
        simp [writeMetricList, hres]
      rw [heq]
      exact ih st2 (h.1 rfl)

theorem writeGroups_inv (host : String) (f : Formatter) (conn : ConnBehavior) :
    ∀ (gs : Store) (st : WSState), WInv conn.writeOk st →
      ((writeGroups host f conn gs st).2 = false →
        WInv conn.writeOk (writeGroups host f conn gs st).1) ∧
      ((writeGroups host f conn gs st).2 = true →
        WErr conn.writeOk (writeGroups host f conn gs st).1) := by
  intro gs
  induction gs with
  | nil =>
    intro st hst
    exact ⟨fun _ => hst, fun h => by simp [writeGroups] at h⟩
  | cons g rest ih =>
    intro st hst
    have h := writeMetricList_inv host f conn g st hst
    rcases hres : writeMetricList host f conn g st with ⟨st2, e⟩
    rw [hres] at h
    cases e with
    | true =>
      have heq : writeGroups host f conn (g :: rest) st = (st2, true) := by
        simp [writeGroups, hres]
      rw [heq]
      exact ⟨fun hc => by simp at hc, fun _ => h.2 rfl⟩
    | false =>
      have heq : writeGroups host f conn (g :: rest) st =
          writeGroups host f conn rest st2 := by
        simp [writeGroups, hres]
      rw [heq]
      exact ih st2 (h.1 rfl)

theorem initWS_inv (w : Nat → Bool) : WInv w initWS :=
  ⟨rfl, rfl, fun j hj => absurd hj (Nat.not_lt_zero j)⟩

/-- If `writeSocketMetrics` returns a write error, the final state is an
error state: the last attempted write failed, all earlier writes succeeded,
and the success counter counts exactly the successful ones. -/
theorem writeSocketMetrics_err (host : String) (f : Formatter) (store : Store)
    (conn : ConnBehavior) (h : (writeSocketMetrics host f store conn).2 = true) :
    WErr conn.writeOk (writeSocketMetrics host f store conn).1 :=
  (writeGroups_inv host f conn store initWS (initWS_inv conn.writeOk)).2 h

theorem writeLabelSets_healthy (host : String) (f : Formatter) (conn : ConnBehavior)
    (m : Metric) (hw : ∀ j, conn.writeOk j = true) :
    ∀ (ls : List LabelSet) (st : WSState),
      writeLabelSets host f conn m ls st =
        ({ st with success := st.success + ls.length, writeIdx := st.writeIdx + ls.length,
                   written := st.written ++ ls.map (fun l => f host m l) }, false) := by
  intro ls
  induction ls with
  | nil =>
    intro st
    simp [writeLabelSets]
  | cons l rest ih =>
    intro st
    rw [show writeLabelSets host f conn m (l :: rest) st =
          writeLabelSets host f conn m rest
            { st with written := st.written ++ [f host m l], writeIdx := st.writeIdx + 1,
                      success := st.success + 1 } from by simp [writeLabelSets, hw]]
    rw [ih]
    simp [Nat.add_comm, Nat.add_left_comm, Nat.add_assoc]

theorem writeMetric_healthy (host : String) (f : Formatter) (conn : ConnBehavior)
    (m : Metric) (hw : ∀ j, conn.writeOk j = true) (st : WSState) :
    writeMetric host f conn m st =
      ({ st with total := st.total + 1,
                 success := st.success + m.labelSets.length,
                 writeIdx := st.writeIdx + m.labelSets.length,
                 written := st.written ++ metricLines host f m }, false) := by
  have h := writeLabelSets_healthy host f conn m hw m.labelSets
      { st with locks := st.locks ++ [m.name], total := st.total + 1 }
  simp only [writeMetric, h, metricLines]
  simp [List.dropLast_concat]

theorem writeMetricList_healthy (host : String) (f : Formatter) (conn : ConnBehavior)
    (hw : ∀ j, conn.writeOk j = true) :
    ∀ (ms : List Metric) (st : WSState),
      writeMetricList host f conn ms st =
        ({ st with total := st.total + ms.length,
                   success := st.success + (ms.map (fun m => m.labelSets.length)).sum,
                   writeIdx := st.writeIdx + (ms.map (fun m => m.labelSets.length)).sum,
                   written := st.written ++ (ms.map (metricLines host f)).flatten }, false) := by
  intro ms
  induction ms with
  | nil =>
    intro st
    simp [writeMetricList]
  | cons m rest ih =>
    intro st
    rw [show writeMetricList host f conn (m :: rest) st =
          writeMetricList host f conn rest
            { st with total := st.total + 1,
                      success := st.success + m.labelSets.length,
                      writeIdx := st.writeIdx + m.labelSets.length,
                      written := st.written ++ metricLines host f m } from by
        simp [writeMetricList, writeMetric_healthy host f conn m hw st]]
    rw [ih]
    simp [Nat.add_comm, Nat.add_left_comm, Nat.add_assoc, List.append_assoc]

theorem writeGroups_healthy (host : String) (f : Formatter) (conn : ConnBehavior)
    (hw : ∀ j, conn.writeOk j = true) :
    ∀ (gs : Store) (st : WSState),
      writeGroups host f conn gs st =
        ({ st with total := st.total + gs.flatten.length,
                   success := st.success + (gs.flatten.map (fun m => m.labelSets.length)).sum,
                   writeIdx := st.writeIdx + (gs.flatten.map (fun m => m.labelSets.length)).sum,
                   written := st.written ++ (gs.flatten.map (metricLines host f)).flatten }, false) := by
  intro gs
  induction gs with
  | nil =>
    intro st
    simp [writeGroups]
  | cons g rest ih =>
    intro st
    rw [show writeGroups host f conn (g :: rest) st =
          writeGroups host f conn rest
            { st with total := st.total + g.length,
                      success := st.success + (g.map (fun m => m.labelSets.length)).sum,
                      writeIdx := st.writeIdx + (g.map (fun m => m.labelSets.length)).sum,
                      written := st.written ++ (g.map (metricLines host f)).flatten } from by
        simp [writeGroups, writeMetricList_healthy host f conn hw g st]]
    rw [ih]
    simp [Nat.add_comm, Nat.add_left_comm, Nat.add_assoc, List.append_assoc]

/-- Over a healthy connection, one export pass returns no error, increments
the attempted counter once per metric, the success counter once per label
set, writes exactly the rendered lines in traversal order, and leaves no
metric lock held. -/
theorem writeSocketMetrics_healthy (host : String) (f : Formatter) (store : Store)
    (conn : ConnBehavior) (hw : ∀ j, conn.writeOk j = true) :
    writeSocketMetrics host f store conn =
      ({ total := storeMetricCount store, success := storeLabelSetCount store,
         writeIdx := storeLabelSetCount store, written := storeLines host f store,
         locks := [] }, false) := by
  rw [writeSocketMetrics, writeGroups_healthy host f conn hw store initWS]
  simp [initWS, storeMetricCount, storeLabelSetCount, storeLines]

-- Lemmas about the PushMetrics loop.

theorem pushMetricsFrom_length (host : String) (store : Store)
    (env : Nat → Option ConnBehavior) :
    ∀ (ts : List TargetModel) (i : Nat),
      (pushMetricsFrom host store env i ts).length = ts.length := by
  intro ts
  induction ts with
  | nil => intro i; rfl
  | cons t rest ih => intro i; simp [pushMetricsFrom, ih]

theorem pushMetricsFrom_getElem (host : String) (store : Store)
    (env : Nat → Option ConnBehavior) :
    ∀ (ts : List TargetModel) (base k : Nat) (hk : k < ts.length),
      (pushMetricsFrom host store env base ts)[k]? =
        some (pushTarget host store (ts.get ⟨k, hk⟩) (env (base + k))) := by
  intro ts
  induction ts with
  | nil =>
    intro base k hk
    exact absurd hk (Nat.not_lt_zero k)
  | cons t rest ih =>
    intro base k hk
    cases k with
    | zero => simp [pushMetricsFrom]
    | succ k =>
      have hk' : k < rest.length := Nat.lt_of_succ_lt_succ hk
      have h := ih (base + 1) k hk'
      have harith : base + 1 + k = base + (k + 1) := by omega
      rw [harith] at h
      simpa [pushMetricsFrom] using h

/-- `PushMetrics` yields one result per registered target. -/
theorem PushMetrics_length (host : String) (store : Store) (targets : List TargetModel)
    (env : Nat → Option ConnBehavior) :
    (PushMetrics host store targets env).length = targets.length :=
  pushMetricsFrom_length host store env targets 0

/-- The `i`-th entry of a push cycle is the push of the `i`-th registered
target with its own dial outcome. -/
theorem PushMetrics_getElem (host : String) (store : Store) (targets : List TargetModel)
    (env : Nat → Option ConnBehavior) (i : Nat) (hi : i < targets.length) :
    (PushMetrics host store targets env)[i]? =
      some (pushTarget host store (targets.get ⟨i, hi⟩) (env i)) := by
  have h := pushMetricsFrom_getElem host store env targets 0 i hi
  rw [Nat.zero_add] at h
  exact h

/-- Claim C1 counterexample: in the registry of the spec's worked example —
one metric `requests` with two label sets — a push cycle over a healthy
connection increments the attempted-export counter by 1, not by 2 as the
claim requires (`exportTotal.Add(1)` sits in the per-metric loop, outside
the per-label-set loop), while the success counter is incremented by 2. -/
theorem c1_attempted_per_labelset_cex :
    storeLabelSetCount reqStore = 2 ∧
    (writeSocketMetrics "host" lineFmt reqStore healthyConn).1.total = 1 ∧
    ¬ (writeSocketMetrics "host" lineFmt reqStore healthyConn).1.total =
        storeLabelSetCount reqStore ∧
    (writeSocketMetrics "host" lineFmt reqStore healthyConn).1.success = 2 := by decide

/-- Claim C1, amended: for every push cycle over a healthy connection, the
attempted-export counter is incremented exactly once per metric in the
registry (a registry with one metric holding two label sets raises it by 1),
the success counter exactly once per label set, and one line per label set
is written, regardless of how label sets are distributed across metrics. -/
theorem c1_attempted_per_metric (host : String) (f : Formatter) (store : Store)
    (conn : ConnBehavior) (hw : ∀ j, conn.writeOk j = true) :
    (writeSocketMetrics host f store conn).2 = false ∧
    (writeSocketMetrics host f store conn).1.total = storeMetricCount store ∧
    (writeSocketMetrics host f store conn).1.success = storeLabelSetCount store ∧
    (writeSocketMetrics host f store conn).1.written = storeLines host f store := by
  rw [writeSocketMetrics_healthy host f store conn hw]
  exact ⟨rfl, rfl, rfl, rfl⟩

/-- Witness for the amended C1 at the spec's worked example. -/
theorem c1_attempted_per_metric_witness :
    (writeSocketMetrics "host" lineFmt reqStore healthyConn).2 = false ∧
    (writeSocketMetrics "host" lineFmt reqStore healthyConn).1.total = storeMetricCount reqStore ∧
    (writeSocketMetrics "host" lineFmt reqStore healthyConn).1.success =
      storeLabelSetCount reqStore ∧
    (writeSocketMetrics "host" lineFmt reqStore healthyConn).1.written =
      storeLines "host" lineFmt reqStore :=
  c1_attempted_per_metric "host" lineFmt reqStore healthyConn (fun _ => rfl)

/-- Claim C2 is refuted by the code: when the first write to the connection
fails, `writeSocketMetrics` returns a write error while the read lock of the
metric being exported is still held (the early `return` at export.go line
114 skips `m.RUnlock()` on line 117; only the store lock is deferred). -/
theorem c2_lock_release_violation :
    (writeSocketMetrics "host" lineFmt reqStore deadConn).2 = true ∧
    (writeSocketMetrics "host" lineFmt reqStore deadConn).1.locks = ["requests"] ∧
    ¬ (writeSocketMetrics "host" lineFmt reqStore deadConn).1.locks = [] := by decide

/-- Claim C4: if a write to a target's connection fails, the failing write
is the last one attempted (no further label sets are written this tick), the
success counter was incremented exactly once per successful write — one
fewer than the lines attempted — the connection is still closed, and the
push cycle still yields a result for every target (no error escapes
`PushMetrics`). -/
theorem c4_write_failure_aborts (host : String) (store : Store) (t : TargetModel)
    (conn : ConnBehavior)
    (h : (pushTarget host store t (some conn)).writeErr = true) :
    (pushTarget host store t (some conn)).successInc + 1 =
      (pushTarget host store t (some conn)).written.length ∧
    conn.writeOk ((pushTarget host store t (some conn)).written.length - 1) = false ∧
    okUpTo conn.writeOk ((pushTarget host store t (some conn)).written.length - 1) ∧
    (pushTarget host store t (some conn)).closed = true ∧
    ∀ (targets : List TargetModel) (env : Nat → Option ConnBehavior),
      (PushMetrics host store targets env).length = targets.length := by
  have hErrEq : (pushTarget host store t (some conn)).writeErr =
      (writeSocketMetrics host t.f store conn).2 := rfl
  rw [hErrEq] at h
  obtain ⟨e1, e2, e3, e4⟩ := writeSocketMetrics_err host t.f store conn h
  have hs : (pushTarget host store t (some conn)).successInc =
      (writeSocketMetrics host t.f store conn).1.success := rfl
  have hwr : (pushTarget host store t (some conn)).written =
      (writeSocketMetrics host t.f store conn).1.written := rfl
  refine ⟨?_, ?_, ?_, rfl, fun targets env => PushMetrics_length host store targets env⟩
  · rw [hs, hwr, e1]; exact e2
  · rw [hwr, e1]; exact e3
  · rw [hwr, e1]; exact e4

/-- Witness for C4: the spec's simulated connection that fails on the second
write, against the two-label-set registry. -/
theorem c4_write_failure_aborts_witness :
    (pushTarget "host" reqStore demoTarget (some failSecondConn)).successInc + 1 =
      (pushTarget "host" reqStore demoTarget (some failSecondConn)).written.length ∧
    (pushTarget "host" reqStore demoTarget (some failSecondConn)).closed = true :=
  ⟨(c4_write_failure_aborts "host" reqStore demoTarget failSecondConn (by decide)).1,
   (c4_write_failure_aborts "host" reqStore demoTarget failSecondConn (by decide)).2.2.2.1⟩

/-- Claim C5: a target whose dial fails contributes exactly the result in
which nothing happened — no counter change, no deadline, no write, no close
— and the push cycle still yields a result for every registered target. -/
theorem c5_dial_failure_skips (host : String) (store : Store)
    (targets : List TargetModel) (env : Nat → Option ConnBehavior) (i : Nat)
    (hi : i < targets.length) (h : env i = none) :
    (PushMetrics host store targets env).length = targets.length ∧
    (PushMetrics host store targets env)[i]? = some dialFailResult := by
  refine ⟨PushMetrics_length host store targets env, ?_⟩
  rw [PushMetrics_getElem host store targets env i hi, h]
  rfl

/-- Witness for C5: a single target whose dial always fails. -/
theorem c5_dial_failure_skips_witness :
    (PushMetrics "host" reqStore [demoTarget] (fun _ => none)).length = 1 ∧
    (PushMetrics "host" reqStore [demoTarget] (fun _ => none))[0]? = some dialFailResult :=
  c5_dial_failure_skips "host" reqStore [demoTarget] (fun _ => none) 0 (by decide) rfl

/-- Claim C8: with zero registered targets the scheduler performs no
background work on any number of ticks; with at least one target, every tick
invokes the pusher exactly once per registered target, in registration
order (the `t`-th tick's result list has exactly one entry per target, and
its `i`-th entry is the push of the `i`-th registered target). -/
theorem c8_scheduler (host : String) (store : Store)
    (env : Nat → Nat → Option ConnBehavior) (targets : List TargetModel)
    (n t i : Nat) (ht : t < n) (hi : i < targets.length) :
    (∀ (env2 : Nat → Nat → Option ConnBehavior) (n2 : Nat),
        StartMetricPushRun host store [] env2 n2 = []) ∧
    (StartMetricPushRun host store targets env n).length = n ∧
    (StartMetricPushRun host store targets env n)[t]? =
      some (PushMetrics host store targets (fun j => env t j)) ∧
    (PushMetrics host store targets (fun j => env t j))[i]? =
      some (pushTarget host store (targets.get ⟨i, hi⟩) (env t i)) := by
  have hpos : targets.length > 0 := Nat.lt_of_le_of_lt (Nat.zero_le i) hi
  refine ⟨fun env2 n2 => by simp [StartMetricPushRun], ?_, ?_, ?_⟩
  · simp [StartMetricPushRun, hpos]
  · simp [StartMetricPushRun, hpos, List.getElem?_range ht]
  · exact PushMetrics_getElem host store targets (fun j => env t j) i hi

/-- Witness for C8: three ticks over one registered target. -/
theorem c8_scheduler_witness :
    (StartMetricPushRun "host" reqStore [demoTarget] demoEnv 3).length = 3 ∧
    (PushMetrics "host" reqStore [demoTarget] (fun j => demoEnv 1 j))[0]? =
      some (pushTarget "host" reqStore demoTarget (demoEnv 1 0)) :=
  ⟨(c8_scheduler "host" reqStore demoEnv [demoTarget] 3 1 0 (by decide) (by decide)).2.1,
   (c8_scheduler "host" reqStore demoEnv [demoTarget] 3 1 0 (by decide) (by decide)).2.2.2⟩

/-- Claim C9: `New` fails exactly on a missing store: with a nil `Store` it
returns the construction error and no exporter; with a store present and a
hostname available — supplied in the options or obtained from the system —
it returns an exporter and no error. -/
theorem c9_new_exporter (o : ExporterOptions) (sys : Except String String)
    (fl : BackendFlags) :
    (o.Store = none → NewExporter o sys fl = Except.error "exporter needs a Store") ∧
    ((o.Store ≠ none ∧ (o.Hostname ≠ "" ∨ ∃ hn, sys = Except.ok hn)) →
      newOk (NewExporter o sys fl) = true) := by
  constructor
  · intro h
    simp [NewExporter, h]
  · rintro ⟨hst, hh⟩
    rcases ho : o.Store with _ | st
    · exact absurd ho hst
    · rcases hh with hne | ⟨hn, hok⟩
      · simp [NewExporter, ho, hne, newOk]
      · by_cases hH : o.Hostname = ""
        · simp [NewExporter, ho, hH, hok, newOk]
        · simp [NewExporter, ho, hH, newOk]

/-- Witness for C9: a nil store is rejected; a store plus an explicit
hostname succeeds even when `os.Hostname` would fail. -/
theorem c9_new_exporter_witness :
    NewExporter { Store := none, Hostname := "", OmitProgLabel := false }
        (Except.ok "sys") { collectdSocketPath := "", graphiteHostPort := "", statsdHostPort := "" } =
      Except.error "exporter needs a Store" ∧
    newOk (NewExporter { Store := some [], Hostname := "myhost", OmitProgLabel := false }
        (Except.error "boom")
        { collectdSocketPath := "", graphiteHostPort := "", statsdHostPort := "" }) = true :=
  ⟨(c9_new_exporter { Store := none, Hostname := "", OmitProgLabel := false }
      (Except.ok "sys")
      { collectdSocketPath := "", graphiteHostPort := "", statsdHostPort := "" }).1 rfl,
   (c9_new_exporter { Store := some [], Hostname := "myhost", OmitProgLabel := false }
      (Except.error "boom")
      { collectdSocketPath := "", graphiteHostPort := "", statsdHostPort := "" }).2
     ⟨by decide, Or.inl (by decide)⟩⟩
